import Mathlib

/-!
Verification of the PageSpeedClone site analyzer (src/analyze-site.js).

The program fetches one page, parses it into a DOM tree, runs six
stateless rule evaluators over the tree together with the raw HTML split
into lines, and writes a flat text report.  We embed the document tree,
the per-element checks and the six evaluators shallowly, modelling the
external collaborators (HTTP client, contrast library) as oracle
parameters.  JavaScript truthiness of attribute values is modelled
explicitly: a missing attribute is `none`, an empty string is falsy.
-/

/-- A DOM node as produced by the cheerio parse: an element with a tag
name, an attribute map, the parsed inline-style map (what the cheerio
css accessor reads), and children; or a text node. -/
inductive Node where
  | elem (tag : String) (attrs : List (String × String))
      (styles : List (String × String)) (children : List Node)
  | text (s : String)
deriving Repr

/-- JavaScript truthiness of a possibly absent string attribute:
`undefined` and the empty string are falsy. -/
def jsTruthy : Option String → Bool
  | none => false
  | some s => s != ""

/-- Attribute lookup on an attribute map, as cheerio attr: `none` when
the attribute is absent. -/
def getAttr (attrs : List (String × String)) (name : String) : Option String :=
  (attrs.find? (fun p => p.1 == name)).map (fun p => p.2)

/-- An element occurrence in the document: the element data together
with the chain of its element ancestors (root first), which is what the
parent links of the source tree provide. -/
structure Occ where
  anc : List (String × List (String × String))
  tag : String
  attrs : List (String × String)
  styles : List (String × String)
  children : List Node
deriving Repr

mutual

/-- All element occurrences of a node in document (preorder) order,
given the ancestor chain above it. -/
def nodeOccs (anc : List (String × List (String × String))) : Node → List Occ
  | Node.text _ => []
  | Node.elem t a s c =>
      ⟨anc, t, a, s, c⟩ :: nodesOccs (anc ++ [(t, a)]) c

/-- All element occurrences of a forest, in order. -/
def nodesOccs (anc : List (String × List (String × String))) :
    List Node → List Occ
  | [] => []
  | n :: ns => nodeOccs anc n ++ nodesOccs anc ns

end

/-- All element occurrences of a document, the selection `$(˂*˃)`. -/
def allOccs (doc : Node) : List Occ := nodeOccs [] doc

/-- The selection by tag name, e.g. `$(˂img˃)`. -/
def selTag (doc : Node) (tag : String) : List Occ :=
  (allOccs doc).filter (fun o => o.tag == tag)

mutual

/-- The text content of a node: concatenation of all descendant text. -/
def textOf : Node → String
  | Node.text s => s
  | Node.elem _ _ _ c => textsOf c

/-- The text content of a forest. -/
def textsOf : List Node → String
  | [] => ""
  | n :: ns => textOf n ++ textsOf ns

end

/-- The text of a selection, as the cheerio text accessor: concatenation
over the selected elements of their text content. -/
def selText (occs : List Occ) : String :=
  match occs with
  | [] => ""
  | o :: os => textsOf o.children ++ selText os

/-- The attr accessor on a selection: the attribute of the first
selected element, `none` when the selection is empty. -/
def selAttr (occs : List Occ) (name : String) : Option String :=
  match occs with
  | [] => none
  | o :: _ => getAttr o.attrs name

/-- The selection `$(˂meta[name=...]˃)`: meta elements whose name
attribute equals the given value. -/
def selMetaName (doc : Node) (value : String) : List Occ :=
  (allOccs doc).filter
    (fun o => o.tag == "meta" && getAttr o.attrs "name" == some value)

/-- Rendering of an attribute map in an opening tag. -/
def renderAttrs : List (String × String) → String
  | [] => ""
  | (k, v) :: rest => " " ++ k ++ "=\"" ++ v ++ "\"" ++ renderAttrs rest

/-- HTML void elements, serialized without a closing tag. -/
def voidTags : List String :=
  ["area", "base", "br", "col", "embed", "hr", "img", "input",
   "link", "meta", "param", "source", "track", "wbr"]

mutual

/-- Serialization of a node back to HTML text, as the cheerio html
accessor used for the location search. -/
def htmlOf : Node → String
  | Node.text s => s
  | Node.elem t a _ c =>
      if voidTags.contains t then "<" ++ t ++ renderAttrs a ++ ">"
      else "<" ++ t ++ renderAttrs a ++ ">" ++ htmlsOf c ++ "</" ++ t ++ ">"

/-- Serialization of a forest. -/
def htmlsOf : List Node → String
  | [] => ""
  | n :: ns => htmlOf n ++ htmlsOf ns

end

/-- Serialization of an element occurrence. -/
def htmlOfOcc (o : Occ) : String :=
  htmlOf (Node.elem o.tag o.attrs o.styles o.children)

/-- Whether pat is a prefix of hay (character lists). -/
def charsLead : List Char → List Char → Bool
  | [], _ => true
  | _ :: _, [] => false
  | p :: ps, h :: hs => p == h && charsLead ps hs

/-- Whether pat occurs as a contiguous sublist of hay. -/
def charsSublist (pat : List Char) : List Char → Bool
  | [] => charsLead pat []
  | h :: hs => charsLead pat (h :: hs) || charsSublist pat hs

/-- The JavaScript string includes test: substring containment. -/
def strContains (hay pat : String) : Bool :=
  charsSublist pat.data hay.data

/-- The JavaScript startsWith test. -/
def jsStartsWith (s pre : String) : Bool :=
  charsLead pre.data s.data

/-- The findIndex call of the source over the raw HTML lines: the index
of the first line containing the pattern, or the sentinel -1. -/
def jsFindIndex (lines : List String) (pat : String) : Int :=
  match lines.findIdx? (fun line => strContains line pat) with
  | some i => (i : Int)
  | none => -1

/-- The location string the evaluators build: `Linha` followed by the
found index plus one, so the sentinel -1 shows as line 0. -/
def locationOf (lines : List String) (pat : String) : String :=
  "Linha " ++ toString (jsFindIndex lines pat + 1)

/-- One reported issue, the sole domain entity of the program.  The
source builds these as object literals; optional fields are absent
unless set. -/
structure Finding where
  type : String
  issue : String
  solution : String
  location : String
  resource : Option String := none
  hierarchy : Option String := none
  size : Option String := none
  contrastRatio : Option String := none
deriving Repr, DecidableEq

/-- The push loop of each evaluator: fold over the selected occurrences
appending the finding the per-element check produces, if any. -/
def eachPush (f : Occ → Option Finding) (occs : List Occ) : List Finding :=
  occs.foldl (fun r o => match f o with | some x => r ++ [x] | none => r) []

/-- Configured report file name. -/
def REPORT_FILE : String := "site-analysis-report.txt"

/-- Configured maximum image size in KB. -/
def MAX_IMAGE_SIZE_KB : Nat := 100

/-- Configured site URL constant of the source. -/
def SITE_URL : String := "cheffycooking.netlify.app"

/-- Two-digit rendering of a number below 100. -/
def pad2 (n : Nat) : String :=
  if n < 10 then "0" ++ toString n else toString n

/-- The formatSize utility: bytes over 1024 to two decimals plus KB
(the toFixed rounding modelled as round half up). -/
def formatSize (bytes : Nat) : String :=
  let centi := (bytes * 100 + 512) / 1024
  toString (centi / 100) ++ "." ++ pad2 (centi % 100) ++ " KB"

/-- Two-decimal rendering of a nonnegative rational, modelling the
toFixed call on the contrast ratio. -/
def ratFixed2 (q : Rat) : String :=
  let c := (q * 100 + 1/2).floor.toNat
  toString (c / 100) ++ "." ++ pad2 (c % 100)

/-- The JavaScript toLowerCase, as a character map. -/
def jsToLower (s : String) : String := String.mk (s.data.map Char.toLower)

/-- One step of the hierarchy walk: the tag in lower case, a hash plus
the id when the id attribute is truthy, and the class list split on
single spaces and joined with dots when the class attribute is truthy. -/
def hierEntry (tag : String) (attrs : List (String × String)) : String :=
  let idPart := match getAttr attrs "id" with
    | some s => if s != "" then "#" ++ s else ""
    | none => ""
  let clsPart := match getAttr attrs "class" with
    | some s => if s != "" then "." ++ String.intercalate "." (s.splitOn " ") else ""
    | none => ""
  jsToLower tag ++ idPart ++ clsPart

/-- The join of the source, mirroring the JavaScript array join. -/
def joinSep (sep : String) : List String → String
  | [] => ""
  | [x] => x
  | x :: y :: xs => x ++ sep ++ joinSep sep (y :: xs)

/-- getElementHierarchy: walk the parent links from the element to the
root, prepending one entry per element, joined with an arrow.  The
chain argument is the ancestor list of the occurrence followed by the
element itself, root first, exactly what the unshift loop builds. -/
def getElementHierarchy (chain : List (String × List (String × String))) : String :=
  joinSep " > " (chain.map (fun p => hierEntry p.1 p.2))

/-- The chain getElementHierarchy is applied to for an occurrence. -/
def occChain (o : Occ) : List (String × List (String × String)) :=
  o.anc ++ [(o.tag, o.attrs)]

/-- Heading tags queried by the SEO evaluator. -/
def headingTags : List String := ["h1", "h2", "h3", "h4", "h5", "h6"]

/-- analyzeSEO: title presence and length, meta description presence and
length, heading presence.  The title is the text of the title selection;
an empty text is falsy, so a missing title and an empty title coincide. -/
def analyzeSEO (doc : Node) (htmlLines : List String) : List Finding :=
  let report : List Finding := []
  let title := selText (selTag doc "title")
  let report :=
    if title == "" then
      report ++ [{ type := "SEO", issue := "Título ausente",
                   solution := "Adicione uma tag <title> no <head> do HTML.",
                   location := "Head do documento" }]
    else if title.length > 60 then
      report ++ [{ type := "SEO", issue := "Título muito longo",
                   solution := "Reduza o título para menos de 60 caracteres.",
                   location := "Head do documento" }]
    else report
  let description := selAttr (selMetaName doc "description") "content"
  let report :=
    if !(jsTruthy description) then
      report ++ [{ type := "SEO", issue := "Meta description ausente",
                   solution := "Adicione uma meta description no <head> do HTML.",
                   location := "Head do documento" }]
    else if (description.getD "").length > 160 then
      report ++ [{ type := "SEO", issue := "Meta description muito longa",
                   solution := "Reduza a meta description para menos de 160 caracteres.",
                   location := "Head do documento" }]
    else report
  let headings := (allOccs doc).filter (fun o => headingTags.contains o.tag)
  let report :=
    if headings.length == 0 then
      report ++ [{ type := "SEO", issue := "Nenhum heading encontrado",
                   solution := "Adicione headings (h1, h2, etc.) para estruturar o conteúdo.",
                   location := "Corpo do documento" }]
    else report
  report

/-- The per-script check of analyzePerformance: a finding when the src
attribute is truthy and neither async nor defer is present. -/
def scriptCheck (htmlLines : List String) (o : Occ) : Option Finding :=
  let src := getAttr o.attrs "src"
  let isAsync := (getAttr o.attrs "async").isSome
  let isDefer := (getAttr o.attrs "defer").isSome
  if jsTruthy src && !isAsync && !isDefer then
    some { type := "Performance", issue := "Script bloqueante",
           solution := "Adicione os atributos \"async\" ou \"defer\" ao script.",
           location := locationOf htmlLines (htmlOfOcc o),
           resource := src }
  else none

/-- The per-image size check of analyzePerformance, with the HEAD
request content-length modelled by an oracle from the src to an
optional byte count (`none` for a failed request or an absent header,
both of which yield no finding in the source). -/
def imageSizeCheck (imageSizes : String → Option Nat)
    (htmlLines : List String) (o : Occ) : Option Finding :=
  let src := getAttr o.attrs "src"
  match src with
  | none => none
  | some s =>
    if s != "" && !(jsStartsWith s "data:") then
      match imageSizes s with
      | some contentLength =>
        if contentLength > MAX_IMAGE_SIZE_KB * 1024 then
          some { type := "Performance", issue := "Imagem muito grande",
                 solution := "Reduza o tamanho da imagem para menos de 100 KB.",
                 location := locationOf htmlLines (htmlOfOcc o),
                 resource := some s,
                 size := some (formatSize contentLength) }
        else none
      | none => none
    else none

/-- analyzePerformance: the first component is the report array at the
moment the function returns, holding only the blocking-script findings
pushed by the synchronous loop; the second component holds the findings
the unawaited per-image callbacks would push onto the same array only
after the await points resolve, strictly after the return. -/
def analyzePerformance (doc : Node) (htmlLines : List String)
    (imageSizes : String → Option Nat) : List Finding × List Finding :=
  (eachPush (scriptCheck htmlLines) (selTag doc "script"),
   eachPush (imageSizeCheck imageSizes htmlLines) (selTag doc "img"))

/-- The missing-alt check of analyzeAccessibility: a finding whenever
the alt attribute is not truthy, carrying the element hierarchy. -/
def altCheck (htmlLines : List String) (o : Occ) : Option Finding :=
  let alt := getAttr o.attrs "alt"
  if jsTruthy alt then none
  else
    some { type := "Acessibilidade", issue := "Imagem sem atributo ALT",
           solution := "Adicione um atributo \"alt\" descritivo à imagem.",
           location := locationOf htmlLines (htmlOfOcc o),
           resource := getAttr o.attrs "src",
           hierarchy := some (getElementHierarchy (occChain o)) }

/-- The contrast check of analyzeAccessibility over every element: when
both the background color and the text color resolve to truthy values,
compute the ratio with the contrast library (an oracle here) and flag a
ratio strictly below 4.5. -/
def contrastCheck (contrastFn : String → String → Rat)
    (htmlLines : List String) (o : Occ) : Option Finding :=
  let bgColor := getAttr o.styles "background-color"
  let textColor := getAttr o.styles "color"
  match bgColor, textColor with
  | some b, some t =>
    if b != "" && t != "" then
      let contrastRatio := contrastFn b t
      if contrastRatio < 4.5 then
        some { type := "Acessibilidade", issue := "Contraste de cores insuficiente",
               solution := "Aumente o contraste entre o texto e o fundo.",
               location := locationOf htmlLines (htmlOfOcc o),
               resource := some (htmlOfOcc o),
               contrastRatio := some (ratFixed2 contrastRatio) }
      else none
    else none
  | _, _ => none

/-- analyzeAccessibility: the missing-alt loop over images followed by
the contrast loop over every element. -/
def analyzeAccessibility (doc : Node) (htmlLines : List String)
    (contrastFn : String → String → Rat) : List Finding :=
  eachPush (altCheck htmlLines) (selTag doc "img") ++
  eachPush (contrastCheck contrastFn htmlLines) (allOccs doc)

/-- The per-link check of analyzeBrokenLinks: the guard requires a
truthy href, then flags an href starting with a hash or equal to the
empty string (the latter branch can never be reached, since an empty
href is falsy). -/
def linkCheck (htmlLines : List String) (o : Occ) : Option Finding :=
  let href := getAttr o.attrs "href"
  if jsTruthy href && (jsStartsWith (href.getD "") "#" || href == some "") then
    some { type := "Link", issue := "Link quebrado ou vazio",
           solution := "Corrija ou remova o link.",
           location := locationOf htmlLines (htmlOfOcc o),
           resource := href }
  else none

/-- analyzeBrokenLinks: the loop over anchor elements. -/
def analyzeBrokenLinks (doc : Node) (htmlLines : List String) : List Finding :=
  eachPush (linkCheck htmlLines) (selTag doc "a")

/-- analyzeSecurity: a single check on the configured SITE_URL constant;
the document and the lines are received and ignored. -/
def analyzeSecurity (doc : Node) (htmlLines : List String) : List Finding :=
  let report : List Finding := []
  let hasHttps := jsStartsWith SITE_URL "https://"
  if !hasHttps then
    report ++ [{ type := "Segurança", issue := "Site não utiliza HTTPS",
                 solution := "Configure o site para usar HTTPS.",
                 location := "URL do site" }]
  else report

/-- analyzeMobile: viewport meta presence. -/
def analyzeMobile (doc : Node) (htmlLines : List String) : List Finding :=
  let report : List Finding := []
  let viewport := selAttr (selMetaName doc "viewport") "content"
  if !(jsTruthy viewport) then
    report ++ [{ type := "Mobile", issue := "Viewport não configurado",
                 solution := "Adicione uma meta tag viewport no <head> do HTML.",
                 location := "Head do documento" }]
  else report

/-- The text block generateReport renders for one finding at a given
index: the numbered header, the four mandatory fields, then any present
optional field, then a blank line. -/
def findingBlock (index : Nat) (item : Finding) : String :=
  "📌 Problema " ++ toString (index + 1) ++ ":\n" ++
  "   - Tipo: " ++ item.type ++ "\n" ++
  "   - Problema: " ++ item.issue ++ "\n" ++
  "   - Solução: " ++ item.solution ++ "\n" ++
  "   - Localização: " ++ item.location ++ "\n" ++
  (match item.resource with | some r => "   - Recurso: " ++ r ++ "\n" | none => "") ++
  (match item.hierarchy with | some h => "   - Hierarquia: " ++ h ++ "\n" | none => "") ++
  (match item.size with | some s => "   - Tamanho: " ++ s ++ "\n" | none => "") ++
  (match item.contrastRatio with | some c => "   - Contraste: " ++ c ++ "\n" | none => "") ++
  "\n"

/-- The full report text generateReport writes: a header line then one
block per finding in order. -/
def generateReportText (report : List Finding) : String :=
  "🔍 Relatório de Análise do Site\n\n" ++
  String.join (report.enum.map (fun p => findingBlock p.1 p.2))

/-- Outcome of one run of the orchestrator: the report text written to
the report file, if any, and the error line logged, if any. -/
structure RunResult where
  written : Option String
  errorLog : Option String
deriving Repr, DecidableEq

/-- analyzeSite: fetch, parse, split into lines, run the six evaluators
in order, concatenate and write the report.  The fetch and the parse
are modelled as oracle results; any failure of either is caught by the
single try block, logged with the error message, and nothing is
written.  The performance list is the array as returned, without the
findings of the unawaited image callbacks. -/
def analyzeSite (fetched : Except String String)
    (parse : String → Except String Node)
    (imageSizes : String → Option Nat)
    (contrastFn : String → String → Rat) : RunResult :=
  match fetched with
  | Except.error e => ⟨none, some ("❌ Erro ao analisar o site: " ++ e)⟩
  | Except.ok data =>
    match parse data with
    | Except.error e => ⟨none, some ("❌ Erro ao analisar o site: " ++ e)⟩
    | Except.ok doc =>
      let htmlLines := data.splitOn "\n"
      let seoReport := analyzeSEO doc htmlLines
      let performanceReport := (analyzePerformance doc htmlLines imageSizes).1
      let accessibilityReport := analyzeAccessibility doc htmlLines contrastFn
      let brokenLinksReport := analyzeBrokenLinks doc htmlLines
      let securityReport := analyzeSecurity doc htmlLines
      let mobileReport := analyzeMobile doc htmlLines
      let fullReport := seoReport ++ performanceReport ++ accessibilityReport ++
        brokenLinksReport ++ securityReport ++ mobileReport
      ⟨some (generateReportText fullReport), none⟩

/-! ## Helper lemmas -/

/-- The push fold starting from an arbitrary accumulator. -/
theorem eachPush_go (f : Occ → Option Finding) :
    ∀ (occs : List Occ) (acc : List Finding),
      occs.foldl (fun r o => match f o with | some x => r ++ [x] | none => r) acc =
        acc ++ occs.filterMap f := by
  intro occs
  induction occs with
  | nil => intro acc; simp
  | cons o os ih =>
    intro acc
    simp only [List.foldl_cons, List.filterMap_cons]
    cases h : f o with
    | none => simp [h, ih]
    | some x => simp [h, ih]

/-- The push loop produces exactly the findings of the per-element
check, one per occurrence on which the check fires. -/
theorem eachPush_eq_filterMap (f : Occ → Option Finding) (occs : List Occ) :
    eachPush f occs = occs.filterMap f := by
  unfold eachPush
  simpa using eachPush_go f occs []

/-- A string of length zero is the empty string. -/
theorem str_eq_empty_of_length (s : String) (h : s.length = 0) : s = "" := by
  cases s with
  | mk data =>
    simp [String.length] at h
    simp [h]

/-- Appending a nonempty string on the right gives a nonempty string. -/
theorem append_ne_empty_right (s t : String) (h : t ≠ "") : s ++ t ≠ "" := by
  intro hc
  apply h
  have hlen : (s ++ t).length = 0 := by rw [hc]; rfl
  rw [String.length_append] at hlen
  exact str_eq_empty_of_length t (Nat.eq_zero_of_add_eq_zero_left hlen)

/-- Appending a nonempty string on the left gives a nonempty string. -/
theorem append_ne_empty_left (s t : String) (h : s ≠ "") : s ++ t ≠ "" := by
  intro hc
  apply h
  have hlen : (s ++ t).length = 0 := by rw [hc]; rfl
  rw [String.length_append] at hlen
  exact str_eq_empty_of_length s (Nat.eq_zero_of_add_eq_zero_right hlen)

/-- The join is nonempty whenever the last entry is nonempty. -/
theorem joinSep_ne_empty (sep : String) :
    ∀ (l : List String) (x : String), x ≠ "" → joinSep sep (l ++ [x]) ≠ "" := by
  intro l
  induction l with
  | nil => intro x hx; simpa [joinSep] using hx
  | cons a l ih =>
    intro x hx
    cases l with
    | nil =>
      simp only [List.cons_append, List.nil_append, joinSep]
      exact append_ne_empty_right _ _ hx
    | cons b l2 =>
      simp only [List.cons_append, joinSep]
      exact append_ne_empty_right _ _ (by simpa using ih x hx)

/-- The location string is never empty. -/
theorem locationOf_ne_empty (lines : List String) (pat : String) :
    locationOf lines pat ≠ "" := by
  unfold locationOf
  exact append_ne_empty_left _ _ (by decide)

/-- Characterization of a successful findIdx search: the index is in
range, the predicate holds there and fails strictly before it. -/
theorem findIdxQ_some_spec (p : String → Bool) :
    ∀ (l : List String) (i : Nat), l.findIdx? p = some i →
      i < l.length ∧ p (l.getD i "") = true ∧ ∀ j, j < i → p (l.getD j "") = false := by
  intro l
  induction l with
  | nil => intro i h; simp [List.findIdx?] at h
  | cons a l ih =>
    intro i h
    rw [List.findIdx?_cons] at h
    by_cases hp : p a
    · simp [hp] at h
      subst h
      exact ⟨Nat.succ_pos _, by simpa using hp, fun j hj => absurd hj (Nat.not_lt_zero j)⟩
    · simp [hp] at h
      obtain ⟨i2, hi2, rfl⟩ := h
      obtain ⟨hlt, hat, hbefore⟩ := ih i2 hi2
      refine ⟨Nat.succ_lt_succ hlt, by simpa using hat, ?_⟩
      intro j hj
      cases j with
      | zero => simpa using hp
      | succ j2 => simpa using hbefore j2 (Nat.lt_of_succ_lt_succ hj)

/-- Characterization of a failed findIdx search: the predicate fails on
every element. -/
theorem findIdxQ_none_spec (p : String → Bool) :
    ∀ (l : List String), l.findIdx? p = none → ∀ x ∈ l, p x = false := by
  intro l
  induction l with
  | nil => intro _ x hx; cases hx
  | cons a l ih =>
    intro h x hx
    rw [List.findIdx?_cons] at h
    by_cases hp : p a
    · simp [hp] at h
    · simp [hp] at h
      cases hx with
      | head => simpa using hp
      | tail _ hx2 => exact h x hx2

/-! ## Sample documents and oracles used by witnesses -/

/-- An image-size oracle on which every HEAD request fails. -/
def noSizes : String → Option Nat := fun _ => none

/-- A constant contrast oracle. -/
def constContrast (q : Rat) : String → String → Rat := fun _ _ => q

/-- A document with one blocking script. -/
def sampleScriptDoc : Node :=
  Node.elem "html" [] [] [Node.elem "script" [("src", "x.js")] [] []]

/-! ## Claims -/

/-- C10: the Security evaluator ignores the parsed tree and the line
array; its output is the same for any two inputs and is determined
solely by whether the configured SITE_URL starts with the https
scheme. -/
theorem securityIndependentOfDocument :
    ∀ (d₁ : Node) (l₁ : List String) (d₂ : Node) (l₂ : List String),
      analyzeSecurity d₁ l₁ = analyzeSecurity d₂ l₂ ∧
      analyzeSecurity d₁ l₁ =
        (if jsStartsWith SITE_URL "https://" then ([] : List Finding)
         else [{ type := "Segurança", issue := "Site não utiliza HTTPS",
                 solution := "Configure o site para usar HTTPS.",
                 location := "URL do site" }]) := by
  intro d₁ l₁ d₂ l₂
  exact ⟨rfl, rfl⟩

/-- C2: the report array analyzePerformance returns holds only the
blocking-script findings of the synchronous loop; the per-image size
checks are scheduled behind await points that cannot resolve before the
return, so no image-size finding is in the returned list. -/
theorem performanceReturnHasNoImageFindings :
    ∀ (doc : Node) (htmlLines : List String) (imageSizes : String → Option Nat)
      (f : Finding), f ∈ (analyzePerformance doc htmlLines imageSizes).1 →
      f.issue = "Script bloqueante" ∧ f.issue ≠ "Imagem muito grande" := by
  intro doc htmlLines imageSizes f hf
  have h1 : f.issue = "Script bloqueante" := by
    unfold analyzePerformance at hf
    rw [eachPush_eq_filterMap] at hf
    simp only [List.mem_filterMap] at hf
    obtain ⟨o, _, ho⟩ := hf
    unfold scriptCheck at ho
    dsimp only at ho
    split at ho
    · cases ho
      rfl
    · cases ho
  exact ⟨h1, by rw [h1]; decide⟩

/-- Witness for C2 at a concrete one-script document. -/
theorem performanceReturnHasNoImageFindingsWitness :
    ({ type := "Performance", issue := "Script bloqueante",
       solution := "Adicione os atributos \"async\" ou \"defer\" ao script.",
       location := "Linha 0", resource := some "x.js" } : Finding) ∈
        (analyzePerformance sampleScriptDoc [] noSizes).1 ∧
    ({ type := "Performance", issue := "Script bloqueante",
       solution := "Adicione os atributos \"async\" ou \"defer\" ao script.",
       location := "Linha 0", resource := some "x.js" } : Finding).issue =
        "Script bloqueante" :=
  ⟨by decide,
   (performanceReturnHasNoImageFindings sampleScriptDoc [] noSizes _ (by decide)).1⟩

/-- A document with an empty link, a fragment link, and an https link. -/
def sampleLinksDoc : Node :=
  Node.elem "html" [] []
    [Node.elem "body" [] []
      [Node.elem "a" [("href", "")] [] [],
       Node.elem "a" [("href", "#top")] [] [],
       Node.elem "a" [("href", "https://example.com")] [] []]]

/-- C1: the evaluator first requires a truthy href, so the empty-string
branch of the disjunction is dead code: the anchor carrying the empty
href (which the spec says gets exactly one finding) produces nothing,
while the fragment anchor produces one finding and the https anchor
none.  Evaluating the code at the failing input. -/
theorem brokenLinksEmptyHrefProducesNothing :
    getAttr [("href", "")] "href" = some "" ∧
    analyzeBrokenLinks sampleLinksDoc [] =
      [{ type := "Link", issue := "Link quebrado ou vazio",
         solution := "Corrija ou remova o link.",
         location := "Linha 0", resource := some "#top" }] :=
  ⟨rfl, by decide⟩

/-- A document with one script whose src attribute is the empty string. -/
def sampleEmptySrcScriptDoc : Node :=
  Node.elem "html" [] [] [Node.elem "script" [("src", "")] [] []]

/-- The single script occurrence of that document. -/
def emptySrcScriptOcc : Occ :=
  ⟨[("html", [])], "script", [("src", "")], [], []⟩

/-- C6 counterexample: a script element that has a src attribute (with
empty value) and lacks both async and defer, yet the Performance
evaluator produces no finding at all, because the source tests the
truthiness of the src value, not the presence of the attribute. -/
theorem scriptEmptySrcCounterexample :
    selTag sampleEmptySrcScriptDoc "script" = [emptySrcScriptOcc] ∧
    (getAttr emptySrcScriptOcc.attrs "src").isSome = true ∧
    getAttr emptySrcScriptOcc.attrs "async" = none ∧
    getAttr emptySrcScriptOcc.attrs "defer" = none ∧
    (analyzePerformance sampleEmptySrcScriptDoc [] noSizes).1 = [] :=
  ⟨rfl, rfl, rfl, rfl, by decide⟩

/-- C6 amended: a script whose src value is truthy (present and
non-empty) and which lacks both async and defer gets exactly one
blocking-script finding; a script with async or defer present, or with
a falsy src, gets none; the returned performance list is exactly one
finding per script on which the check fires. -/
theorem scriptBlockingFindings :
    ∀ (doc : Node) (htmlLines : List String) (imageSizes : String → Option Nat)
      (o : Occ), o ∈ selTag doc "script" →
      ((jsTruthy (getAttr o.attrs "src") = true ∧ getAttr o.attrs "async" = none ∧
          getAttr o.attrs "defer" = none) →
        scriptCheck htmlLines o =
          some { type := "Performance", issue := "Script bloqueante",
                 solution := "Adicione os atributos \"async\" ou \"defer\" ao script.",
                 location := locationOf htmlLines (htmlOfOcc o),
                 resource := getAttr o.attrs "src" }) ∧
      (((getAttr o.attrs "async").isSome = true ∨ (getAttr o.attrs "defer").isSome = true ∨
          jsTruthy (getAttr o.attrs "src") = false) → scriptCheck htmlLines o = none) ∧
      (analyzePerformance doc htmlLines imageSizes).1 =
        (selTag doc "script").filterMap (scriptCheck htmlLines) := by
  intro doc htmlLines imageSizes o ho
  refine ⟨?_, ?_, ?_⟩
  · rintro ⟨hsrc, hasync, hdefer⟩
    unfold scriptCheck
    dsimp only
    rw [hsrc, hasync, hdefer]
    rfl
  · intro hcase
    unfold scriptCheck
    dsimp only
    rcases hcase with h | h | h
    · rw [h]
      simp
    · rw [h]
      simp
    · rw [h]
      simp
  · unfold analyzePerformance
    rw [eachPush_eq_filterMap]

/-- Witness for C6 at the one-script document. -/
theorem scriptBlockingFindingsWitness :
    (∀ o ∈ selTag sampleScriptDoc "script",
        jsTruthy (getAttr o.attrs "src") = true ∧ getAttr o.attrs "async" = none ∧
        getAttr o.attrs "defer" = none) ∧
    scriptCheck [] ⟨[("html", [])], "script", [("src", "x.js")], [], []⟩ =
      some { type := "Performance", issue := "Script bloqueante",
             solution := "Adicione os atributos \"async\" ou \"defer\" ao script.",
             location := "Linha 0", resource := some "x.js" } := by
  constructor
  · intro o ho
    have h : selTag sampleScriptDoc "script" =
        [⟨[("html", [])], "script", [("src", "x.js")], [], []⟩] := rfl
    rw [h] at ho
    simp at ho
    subst ho
    exact ⟨rfl, rfl, rfl⟩
  · have h := (scriptBlockingFindings sampleScriptDoc [] noSizes
      ⟨[("html", [])], "script", [("src", "x.js")], [], []⟩
      (by rw [show selTag sampleScriptDoc "script" =
           [⟨[("html", [])], "script", [("src", "x.js")], [], []⟩] from rfl]
          simp)).1 ⟨rfl, rfl, rfl⟩
    rw [h]
    rfl

/-- C7: the reported location is built from the substring search over
the raw lines: on success it is the 1-based index (first line whose
text contains the serialized element, no earlier line containing it);
on failure the sentinel -1 makes the location read line 0. -/
theorem locationHeuristicSpec :
    ∀ (lines : List String) (pat : String),
      (∀ i : Nat, lines.findIdx? (fun line => strContains line pat) = some i →
        jsFindIndex lines pat = (i : Int) ∧
        locationOf lines pat = "Linha " ++ toString ((i : Int) + 1) ∧
        i < lines.length ∧ strContains (lines.getD i "") pat = true ∧
        ∀ j, j < i → strContains (lines.getD j "") pat = false) ∧
      (lines.findIdx? (fun line => strContains line pat) = none →
        jsFindIndex lines pat = -1 ∧ locationOf lines pat = "Linha 0" ∧
        ∀ line ∈ lines, strContains line pat = false) := by
  intro lines pat
  constructor
  · intro i h
    have hspec := findIdxQ_some_spec (fun line => strContains line pat) lines i h
    have hidx : jsFindIndex lines pat = (i : Int) := by
      unfold jsFindIndex
      rw [h]
    refine ⟨hidx, ?_, hspec.1, hspec.2.1, hspec.2.2⟩
    unfold locationOf
    rw [hidx]
  · intro h
    have hspec := findIdxQ_none_spec (fun line => strContains line pat) lines h
    have hidx : jsFindIndex lines pat = -1 := by
      unfold jsFindIndex
      rw [h]
    refine ⟨hidx, ?_, hspec⟩
    unfold locationOf
    rw [hidx]
    rfl

/-- Witness for C7: a hit on the second line reads line 2, and a
missing pattern reads line 0. -/
theorem locationHeuristicSpecWitness :
    (["<p>x</p>", "ab <img> cd"].findIdx?
        (fun line => strContains line "<img>") = some 1 ∧
      locationOf ["<p>x</p>", "ab <img> cd"] "<img>" = "Linha 2") ∧
    (["<p>x</p>"].findIdx? (fun line => strContains line "<video>") = none ∧
      locationOf ["<p>x</p>"] "<video>" = "Linha 0") := by
  constructor
  · refine ⟨by decide, ?_⟩
    have h := ((locationHeuristicSpec ["<p>x</p>", "ab <img> cd"] "<img>").1 1
      (by decide)).2.1
    rw [h]
    rfl
  · refine ⟨by decide, ?_⟩
    exact ((locationHeuristicSpec ["<p>x</p>"] "<video>").2 (by decide)).2.1

/-- C3: a document with no title element gets exactly one missing-title
finding and no too-long finding; a title text of length 61 yields the
too-long finding, one of length 60 does not (threshold strictly above
60). -/
theorem seoTitleChecks :
    ∀ (doc : Node) (htmlLines : List String),
      (selTag doc "title" = [] →
        (analyzeSEO doc htmlLines).countP (fun f => f.issue == "Título ausente") = 1 ∧
        (analyzeSEO doc htmlLines).countP (fun f => f.issue == "Título muito longo") = 0) ∧
      ((selText (selTag doc "title")).length = 61 →
        (analyzeSEO doc htmlLines).countP (fun f => f.issue == "Título muito longo") = 1) ∧
      ((selText (selTag doc "title")).length = 60 →
        (analyzeSEO doc htmlLines).countP (fun f => f.issue == "Título muito longo") = 0) := by
  intro doc htmlLines
  refine ⟨?_, ?_, ?_⟩
  · intro h
    unfold analyzeSEO
    dsimp only
    rw [h]
    simp only [selText]
    constructor <;>
      · split <;> split <;> (try split) <;>
          simp_all [List.countP_append, List.countP_cons, List.countP_nil]
  · intro h
    have hne : (selText (selTag doc "title") == "") = false := by
      refine beq_eq_false_iff_ne.mpr ?_
      intro he
      rw [he] at h
      simp at h
    unfold analyzeSEO
    dsimp only
    rw [hne, h]
    split <;> split <;> (try split) <;>
      simp_all [List.countP_append, List.countP_cons, List.countP_nil]
  · intro h
    have hne : (selText (selTag doc "title") == "") = false := by
      refine beq_eq_false_iff_ne.mpr ?_
      intro he
      rw [he] at h
      simp at h
    unfold analyzeSEO
    dsimp only
    rw [hne, h]
    split <;> split <;> (try split) <;>
      simp_all [List.countP_append, List.countP_cons, List.countP_nil]

/-- A document with no title element at all. -/
def docNoTitle : Node := Node.elem "html" [] [] []

/-- A document whose title text has exactly 61 characters. -/
def title61Doc : Node :=
  Node.elem "html" [] []
    [Node.elem "head" [] []
      [Node.elem "title" [] []
        [Node.text "aaaaaaaaaaaaaaaaaaaaaaaaaaaaaaaaaaaaaaaaaaaaaaaaaaaaaaaaaaaaa"]]]

/-- A document whose title text has exactly 60 characters. -/
def title60Doc : Node :=
  Node.elem "html" [] []
    [Node.elem "head" [] []
      [Node.elem "title" [] []
        [Node.text "aaaaaaaaaaaaaaaaaaaaaaaaaaaaaaaaaaaaaaaaaaaaaaaaaaaaaaaaaaaa"]]]

/-- Witness for C3: the three title scenarios at concrete documents. -/
theorem seoTitleChecksWitness :
    (selTag docNoTitle "title" = [] ∧
      ((analyzeSEO docNoTitle []).countP (fun f => f.issue == "Título ausente") = 1 ∧
       (analyzeSEO docNoTitle []).countP (fun f => f.issue == "Título muito longo") = 0)) ∧
    ((selText (selTag title61Doc "title")).length = 61 ∧
      (analyzeSEO title61Doc []).countP (fun f => f.issue == "Título muito longo") = 1) ∧
    ((selText (selTag title60Doc "title")).length = 60 ∧
      (analyzeSEO title60Doc []).countP (fun f => f.issue == "Título muito longo") = 0) :=
  ⟨⟨rfl, (seoTitleChecks docNoTitle []).1 rfl⟩,
   ⟨by decide, (seoTitleChecks title61Doc []).2.1 (by decide)⟩,
   ⟨by decide, (seoTitleChecks title60Doc []).2.2 (by decide)⟩⟩

/-- Membership in a tag selection fixes the tag. -/
theorem selTag_tag_eq (doc : Node) (tag : String) (o : Occ)
    (h : o ∈ selTag doc tag) : o.tag = tag := by
  unfold selTag at h
  have := List.of_mem_filter h
  simpa using this

/-- The hierarchy entry of an img element is nonempty. -/
theorem hierEntry_img_ne_empty (attrs : List (String × String)) :
    hierEntry "img" attrs ≠ "" := by
  unfold hierEntry
  dsimp only
  exact append_ne_empty_left _ _ (append_ne_empty_left _ _ (by decide))

/-- The hierarchy of an img occurrence is nonempty: the walk always
reaches the element itself, whose entry starts with its tag. -/
theorem img_hierarchy_ne_empty (o : Occ) (htag : o.tag = "img") :
    getElementHierarchy (occChain o) ≠ "" := by
  unfold getElementHierarchy occChain
  rw [List.map_append]
  simp only [List.map_cons, List.map_nil]
  exact joinSep_ne_empty " > " _ _ (by rw [htag]; exact hierEntry_img_ne_empty o.attrs)

/-- C4: an img whose alt attribute is missing or empty gets exactly one
accessibility finding carrying the (nonempty) ancestor hierarchy; an
img with a truthy alt gets none; the evaluator output is exactly the
per-image findings followed by the contrast findings. -/
theorem accessibilityMissingAlt :
    ∀ (doc : Node) (htmlLines : List String) (contrastFn : String → String → Rat)
      (o : Occ), o ∈ selTag doc "img" →
      (jsTruthy (getAttr o.attrs "alt") = false →
        altCheck htmlLines o =
          some { type := "Acessibilidade", issue := "Imagem sem atributo ALT",
                 solution := "Adicione um atributo \"alt\" descritivo à imagem.",
                 location := locationOf htmlLines (htmlOfOcc o),
                 resource := getAttr o.attrs "src",
                 hierarchy := some (getElementHierarchy (occChain o)) } ∧
        getElementHierarchy (occChain o) ≠ "") ∧
      (jsTruthy (getAttr o.attrs "alt") = true → altCheck htmlLines o = none) ∧
      analyzeAccessibility doc htmlLines contrastFn =
        (selTag doc "img").filterMap (altCheck htmlLines) ++
        (allOccs doc).filterMap (contrastCheck contrastFn htmlLines) := by
  intro doc htmlLines contrastFn o ho
  refine ⟨?_, ?_, ?_⟩
  · intro halt
    constructor
    · unfold altCheck
      dsimp only
      rw [halt]
      rfl
    · exact img_hierarchy_ne_empty o (selTag_tag_eq doc "img" o ho)
  · intro halt
    unfold altCheck
    dsimp only
    rw [halt]
    rfl
  · unfold analyzeAccessibility
    rw [eachPush_eq_filterMap, eachPush_eq_filterMap]

/-- A document with an img lacking alt and an img with alt. -/
def sampleImgDoc : Node :=
  Node.elem "html" [] []
    [Node.elem "body" [("id", "main")] []
      [Node.elem "img" [("src", "a.png"), ("alt", "")] [] [],
       Node.elem "img" [("src", "b.png"), ("alt", "a dog")] [] []]]

/-- The first img occurrence of that document. -/
def imgNoAltOcc : Occ :=
  ⟨[("html", []), ("body", [("id", "main")])], "img",
   [("src", "a.png"), ("alt", "")], [], []⟩

/-- Witness for C4: the img with the explicitly empty alt is flagged
with hierarchy path html ˃ body#main ˃ img. -/
theorem accessibilityMissingAltWitness :
    imgNoAltOcc ∈ selTag sampleImgDoc "img" ∧
    jsTruthy (getAttr imgNoAltOcc.attrs "alt") = false ∧
    altCheck [] imgNoAltOcc =
      some { type := "Acessibilidade", issue := "Imagem sem atributo ALT",
             solution := "Adicione um atributo \"alt\" descritivo à imagem.",
             location := "Linha 0", resource := some "a.png",
             hierarchy := some "html > body#main > img" } := by
  have hmem : imgNoAltOcc ∈ selTag sampleImgDoc "img" := by
    rw [show selTag sampleImgDoc "img" =
      [imgNoAltOcc,
       ⟨[("html", []), ("body", [("id", "main")])], "img",
        [("src", "b.png"), ("alt", "a dog")], [], []⟩] from rfl]
    exact List.mem_cons_self _ _
  refine ⟨hmem, rfl, ?_⟩
  have h := ((accessibilityMissingAlt sampleImgDoc [] (constContrast 10)
    imgNoAltOcc hmem).1 rfl).1
  rw [h]
  rfl

/-- C5: for an element whose background color and text color both
resolve to truthy values, the contrast finding is produced exactly when
the computed ratio is strictly below 4.5; at exactly 4.5, and above,
none is produced. -/
theorem accessibilityContrastThreshold :
    ∀ (doc : Node) (htmlLines : List String) (contrastFn : String → String → Rat)
      (o : Occ) (b t : String), o ∈ allOccs doc →
      getAttr o.styles "background-color" = some b → b ≠ "" →
      getAttr o.styles "color" = some t → t ≠ "" →
      ((contrastFn b t < 4.5 →
          contrastCheck contrastFn htmlLines o =
            some { type := "Acessibilidade", issue := "Contraste de cores insuficiente",
                   solution := "Aumente o contraste entre o texto e o fundo.",
                   location := locationOf htmlLines (htmlOfOcc o),
                   resource := some (htmlOfOcc o),
                   contrastRatio := some (ratFixed2 (contrastFn b t)) }) ∧
        (4.5 ≤ contrastFn b t → contrastCheck contrastFn htmlLines o = none) ∧
        (contrastFn b t = 4.5 → contrastCheck contrastFn htmlLines o = none)) ∧
      analyzeAccessibility doc htmlLines contrastFn =
        (selTag doc "img").filterMap (altCheck htmlLines) ++
        (allOccs doc).filterMap (contrastCheck contrastFn htmlLines) := by
  intro doc htmlLines contrastFn o b t _ hb hbne ht htne
  have hbT : (b != "") = true := by simpa using hbne
  have htT : (t != "") = true := by simpa using htne
  refine ⟨⟨?_, ?_, ?_⟩, ?_⟩
  · intro hlt
    unfold contrastCheck
    rw [hb, ht]
    dsimp only
    rw [hbT, htT]
    simp [hlt]
  · intro hge
    unfold contrastCheck
    rw [hb, ht]
    dsimp only
    rw [hbT, htT]
    simp [not_lt_of_ge hge]
  · intro heq
    unfold contrastCheck
    rw [hb, ht]
    dsimp only
    rw [hbT, htT]
    simp [heq]
  · unfold analyzeAccessibility
    rw [eachPush_eq_filterMap, eachPush_eq_filterMap]

/-- A document with one styled paragraph. -/
def sampleStyledDoc : Node :=
  Node.elem "html" [] []
    [Node.elem "p" [] [("background-color", "white"), ("color", "silver")] []]

/-- The styled paragraph occurrence of that document. -/
def styledPOcc : Occ :=
  ⟨[("html", [])], "p", [], [("background-color", "white"), ("color", "silver")], []⟩

/-- Witness for C5: with a ratio of 2 the finding is produced, and with
a ratio of exactly 4.5 it is not. -/
theorem accessibilityContrastThresholdWitness :
    styledPOcc ∈ allOccs sampleStyledDoc ∧
    getAttr styledPOcc.styles "background-color" = some "white" ∧
    getAttr styledPOcc.styles "color" = some "silver" ∧
    (contrastCheck (constContrast 2) [] styledPOcc ≠ none) ∧
    contrastCheck (constContrast (9/2)) [] styledPOcc = none := by
  have hmem : styledPOcc ∈ allOccs sampleStyledDoc := by
    rw [show allOccs sampleStyledDoc =
      [⟨[], "html", [], [], [Node.elem "p" [] [("background-color", "white"), ("color", "silver")] []]⟩,
       styledPOcc] from rfl]
    exact List.mem_cons_of_mem _ (List.mem_cons_self _ _)
  refine ⟨hmem, rfl, rfl, ?_, ?_⟩
  · have h := ((accessibilityContrastThreshold sampleStyledDoc [] (constContrast 2)
      styledPOcc "white" "silver" hmem rfl (by decide) rfl (by decide)).1).1
      (by norm_num [constContrast])
    rw [h]
    simp
  · exact ((accessibilityContrastThreshold sampleStyledDoc [] (constContrast (9/2))
      styledPOcc "white" "silver" hmem rfl (by decide) rfl (by decide)).1).2.2
      (by norm_num [constContrast])

/-- C8: a failed fetch, or a failed parse, is caught by the single try
block of the orchestrator: the error message is logged and nothing is
written; the report exists only when both stages succeed. -/
theorem orchestratorFailureWritesNothing :
    ∀ (parse : String → Except String Node) (imageSizes : String → Option Nat)
      (contrastFn : String → String → Rat) (e data : String),
      ((analyzeSite (Except.error e) parse imageSizes contrastFn).written = none ∧
       (analyzeSite (Except.error e) parse imageSizes contrastFn).errorLog =
         some ("❌ Erro ao analisar o site: " ++ e)) ∧
      (parse data = Except.error e →
        (analyzeSite (Except.ok data) parse imageSizes contrastFn).written = none ∧
        (analyzeSite (Except.ok data) parse imageSizes contrastFn).errorLog =
          some ("❌ Erro ao analisar o site: " ++ e)) := by
  intro parse imageSizes contrastFn e data
  refine ⟨⟨rfl, rfl⟩, ?_⟩
  intro hp
  unfold analyzeSite
  dsimp only
  rw [hp]
  exact ⟨rfl, rfl⟩

/-- A parser that always fails. -/
def failingParse : String → Except String Node :=
  fun _ => Except.error "parse falhou"

/-- Witness for C8 at a concrete failing parse. -/
theorem orchestratorFailureWritesNothingWitness :
    failingParse "<html>" = Except.error "parse falhou" ∧
    (analyzeSite (Except.ok "<html>") failingParse noSizes (constContrast 10)).written = none ∧
    (analyzeSite (Except.ok "<html>") failingParse noSizes (constContrast 10)).errorLog =
      some "❌ Erro ao analisar o site: parse falhou" := by
  have h := (orchestratorFailureWritesNothing failingParse noSizes (constContrast 10)
    "parse falhou" "<html>").2 rfl
  refine ⟨rfl, h.1, ?_⟩
  rw [h.2]
  decide

/-- The Finding invariant of the data model: the four mandatory fields
are nonempty. -/
def nonEmptyFields (f : Finding) : Prop :=
  f.type ≠ "" ∧ f.issue ≠ "" ∧ f.solution ≠ "" ∧ f.location ≠ ""

/-- Nonempty fields for a structure literal, from the four parts. -/
theorem fieldsOfParts {r hi sz cr : Option String} {ty isx so lo : String}
    (h1 : ty ≠ "") (h2 : isx ≠ "") (h3 : so ≠ "") (h4 : lo ≠ "") :
    nonEmptyFields { type := ty, issue := isx, solution := so, location := lo,
                     resource := r, hierarchy := hi, size := sz, contrastRatio := cr } :=
  ⟨h1, h2, h3, h4⟩

/-- A push loop whose check only emits findings with nonempty fields
yields a list of findings with nonempty fields. -/
theorem eachPush_fields (check : Occ → Option Finding)
    (h : ∀ o g, check o = some g → nonEmptyFields g) :
    ∀ (occs : List Occ) (f : Finding), f ∈ eachPush check occs → nonEmptyFields f := by
  intro occs f hf
  rw [eachPush_eq_filterMap] at hf
  simp only [List.mem_filterMap] at hf
  obtain ⟨o, _, ho⟩ := hf
  exact h o f ho

/-- The blocking-script check emits only findings with nonempty fields. -/
theorem scriptCheck_fields (htmlLines : List String) (o : Occ) (g : Finding)
    (h : scriptCheck htmlLines o = some g) : nonEmptyFields g := by
  unfold scriptCheck at h
  dsimp only at h
  split at h
  · cases h
    exact fieldsOfParts (by decide) (by decide) (by decide) (locationOf_ne_empty _ _)
  · cases h

/-- The image-size check emits only findings with nonempty fields. -/
theorem imageSizeCheck_fields (imageSizes : String → Option Nat)
    (htmlLines : List String) (o : Occ) (g : Finding)
    (h : imageSizeCheck imageSizes htmlLines o = some g) : nonEmptyFields g := by
  unfold imageSizeCheck at h
  dsimp only at h
  split at h
  · cases h
  · split at h
    · split at h
      · split at h
        · cases h
          exact fieldsOfParts (by decide) (by decide) (by decide) (locationOf_ne_empty _ _)
        · cases h
      · cases h
    · cases h

/-- The missing-alt check emits only findings with nonempty fields. -/
theorem altCheck_fields (htmlLines : List String) (o : Occ) (g : Finding)
    (h : altCheck htmlLines o = some g) : nonEmptyFields g := by
  unfold altCheck at h
  dsimp only at h
  split at h
  · cases h
  · cases h
    exact fieldsOfParts (by decide) (by decide) (by decide) (locationOf_ne_empty _ _)

/-- The contrast check emits only findings with nonempty fields. -/
theorem contrastCheck_fields (contrastFn : String → String → Rat)
    (htmlLines : List String) (o : Occ) (g : Finding)
    (h : contrastCheck contrastFn htmlLines o = some g) : nonEmptyFields g := by
  unfold contrastCheck at h
  dsimp only at h
  split at h
  · split at h
    · split at h
      · cases h
        exact fieldsOfParts (by decide) (by decide) (by decide) (locationOf_ne_empty _ _)
      · cases h
    · cases h
  · cases h

/-- The broken-link check emits only findings with nonempty fields. -/
theorem linkCheck_fields (htmlLines : List String) (o : Occ) (g : Finding)
    (h : linkCheck htmlLines o = some g) : nonEmptyFields g := by
  unfold linkCheck at h
  dsimp only at h
  split at h
  · cases h
    exact fieldsOfParts (by decide) (by decide) (by decide) (locationOf_ne_empty _ _)
  · cases h

/-- Every SEO finding has nonempty fields. -/
theorem analyzeSEO_fields (doc : Node) (htmlLines : List String) (f : Finding)
    (hf : f ∈ analyzeSEO doc htmlLines) : nonEmptyFields f := by
  unfold analyzeSEO at hf
  dsimp only at hf
  repeat' (split at hf)
  all_goals
    simp only [List.nil_append, List.cons_append, List.append_nil, List.mem_append,
      List.mem_cons, List.not_mem_nil, List.mem_singleton, or_false, false_or] at hf
  all_goals
    first
      | exact hf.elim
      | exact ⟨by decide, by decide, by decide, by decide⟩
      | (rcases hf with rfl | rfl | rfl <;> exact ⟨by decide, by decide, by decide, by decide⟩)

/-- Every security finding has nonempty fields. -/
theorem analyzeSecurity_fields (doc : Node) (htmlLines : List String) (f : Finding)
    (hf : f ∈ analyzeSecurity doc htmlLines) : nonEmptyFields f := by
  unfold analyzeSecurity at hf
  dsimp only at hf
  repeat' (split at hf)
  all_goals simp only [List.nil_append, List.mem_singleton, List.not_mem_nil] at hf
  · subst hf
    exact ⟨by decide, by decide, by decide, by decide⟩

/-- Every mobile finding has nonempty fields. -/
theorem analyzeMobile_fields (doc : Node) (htmlLines : List String) (f : Finding)
    (hf : f ∈ analyzeMobile doc htmlLines) : nonEmptyFields f := by
  unfold analyzeMobile at hf
  dsimp only at hf
  repeat' (split at hf)
  all_goals simp only [List.nil_append, List.mem_singleton, List.not_mem_nil] at hf
  · subst hf
    exact ⟨by decide, by decide, by decide, by decide⟩

/-- C9: every finding any of the six evaluators can create, the
deferred image-size findings included, has nonempty type, issue,
solution and location fields.  The model builds findings as immutable
values appended to per-evaluator lists, matching the source, which only
ever pushes object literals and never mutates or removes them. -/
theorem allFindingsHaveNonEmptyFields :
    ∀ (doc : Node) (htmlLines : List String) (imageSizes : String → Option Nat)
      (contrastFn : String → String → Rat) (f : Finding),
      f ∈ analyzeSEO doc htmlLines ++
          (analyzePerformance doc htmlLines imageSizes).1 ++
          (analyzePerformance doc htmlLines imageSizes).2 ++
          analyzeAccessibility doc htmlLines contrastFn ++
          analyzeBrokenLinks doc htmlLines ++
          analyzeSecurity doc htmlLines ++
          analyzeMobile doc htmlLines →
      f.type ≠ "" ∧ f.issue ≠ "" ∧ f.solution ≠ "" ∧ f.location ≠ "" := by
  intro doc htmlLines imageSizes contrastFn f hf
  simp only [List.mem_append] at hf
  rcases hf with ((((((hf | hf) | hf) | hf) | hf) | hf) | hf)
  · exact analyzeSEO_fields doc htmlLines f hf
  · exact eachPush_fields _ (fun o g => scriptCheck_fields htmlLines o g) _ f hf
  · exact eachPush_fields _ (fun o g => imageSizeCheck_fields imageSizes htmlLines o g) _ f hf
  · unfold analyzeAccessibility at hf
    rw [List.mem_append] at hf
    rcases hf with hf | hf
    · exact eachPush_fields _ (fun o g => altCheck_fields htmlLines o g) _ f hf
    · exact eachPush_fields _ (fun o g => contrastCheck_fields contrastFn htmlLines o g) _ f hf
  · exact eachPush_fields _ (fun o g => linkCheck_fields htmlLines o g) _ f hf
  · exact analyzeSecurity_fields doc htmlLines f hf
  · exact analyzeMobile_fields doc htmlLines f hf

/-- The blocking-script finding of the one-script sample document. -/
def blockingScriptFinding : Finding :=
  { type := "Performance", issue := "Script bloqueante",
    solution := "Adicione os atributos \"async\" ou \"defer\" ao script.",
    location := "Linha 0", resource := some "x.js" }

/-- Witness for C9 at the one-script document. -/
theorem allFindingsHaveNonEmptyFieldsWitness :
    blockingScriptFinding ∈
      analyzeSEO sampleScriptDoc [] ++
      (analyzePerformance sampleScriptDoc [] noSizes).1 ++
      (analyzePerformance sampleScriptDoc [] noSizes).2 ++
      analyzeAccessibility sampleScriptDoc [] (constContrast 10) ++
      analyzeBrokenLinks sampleScriptDoc [] ++
      analyzeSecurity sampleScriptDoc [] ++
      analyzeMobile sampleScriptDoc [] ∧
    (("Performance" : String) ≠ "" ∧ ("Script bloqueante" : String) ≠ "" ∧
     ("Adicione os atributos \"async\" ou \"defer\" ao script." : String) ≠ "" ∧
     ("Linha 0" : String) ≠ "") :=
  ⟨by decide,
   allFindingsHaveNonEmptyFields sampleScriptDoc [] noSizes (constContrast 10)
     blockingScriptFinding (by decide)⟩
